import Mathlib

/-
Verification of the external-change reconciliation engine of the Vortex
mod manager (src/extensions/mod_management/util/externalChanges.ts).

The TypeScript functions applyFileActions, checkForExternalChanges and
dealWithExternalChanges are embedded as pure Lean functions.  Filesystem
operations and activator queries are modelled by oracles (a function from
the requested operation to its outcome), and the bluebird promise chains
are modelled by explicit sequencing with an Except-style error channel:
a rejected promise corresponds to an error result, and the operations
initiated before the rejection are collected in a trace.
-/

namespace Vortex

/-- Modelled from the spec, section 3 (the type declaration file
types/IDeployedFile is not part of the sources): one row of the
deployment manifest, with the fields relPath, source, sourcePath, time.
The reconciliation code reads only relPath. -/
structure IDeployedFile where
  relPath : String
  source : String
  sourcePath : String
  time : Nat
deriving DecidableEq, Repr

/-- Modelled from the spec, section 3 (types/IFileEntry is not part of
the sources): one resolution decision, with the action tag kept as a
string exactly as the TypeScript code compares it, the possibly
undefined relative path (None models undefined), the source mod id, the
mod type it applies to, and the two modification timestamps compared by
the newest resolution. -/
structure IFileEntry where
  action : String
  filePath : Option String
  source : String
  modTypeId : String
  sourceModified : Nat
  destModified : Nat
deriving DecidableEq, Repr

/-- Modelled from the spec, section 3 (types/IFileChange is not part of
the sources): one detected discrepancy.  The reconciliation code only
moves these records around, so the exact fields are irrelevant here. -/
structure IFileChange where
  filePath : String
  source : String
  changeType : String
deriving DecidableEq, Repr

/-- Modelled from the spec, section 6 (util/selectors is not part of the
sources): a profile record resolving to a profile id and a game id. -/
structure IProfile where
  id : String
  gameId : String
deriving DecidableEq, Repr

/-- Modelled from the spec, section 6: the slice of the redux store the
reconciliation code reads, namely the persistent profile table and the
id of the currently active profile. -/
structure AppState where
  profiles : List (String × IProfile)
  activeProfileId : Option String
deriving Repr

/-- Modelled from the spec, section 6 (selector profileById): resolve a
profile id against the persistent profile table. -/
def profileById (state : AppState) (profileId : String) : Option IProfile :=
  state.profiles.lookup profileId

/-- Modelled from the spec, section 6 (selector activeProfile): the
profile of the currently active profile id, when there is one. -/
def activeProfile (state : AppState) : Option IProfile :=
  match state.activeProfileId with
  | none => none
  | some pid => profileById state pid

/-- Modelled from the spec, section 6 (selector activeGameId): the game
id of the active profile, undefined when there is none. -/
def activeGameId (state : AppState) : Option String :=
  match activeProfile state with
  | none => none
  | some profile => some profile.gameId

/-- The truthy helper of util/util.ts applied to a possibly undefined
string: undefined and the empty string are falsy, everything else is
truthy. -/
def truthy : Option String → Bool
  | none => false
  | some s => !(s = "")

/-- path.join restricted to the way externalChanges.ts uses it: the
components are concatenated with the path separator. -/
def joinPath (parts : List String) : String :=
  String.intercalate "/" parts

/-- One filesystem operation issued by the reconciliation executor:
either fs.removeAsync on a path or fs.moveAsync from a source to a
destination with an overwrite flag. -/
inductive FileOp where
  | remove (p : String)
  | move (src dest : String) (overwrite : Bool)
deriving DecidableEq, Repr

/-- Outcome of one filesystem operation as decided by the oracle: the
underlying promise resolves, rejects with code ENOENT, or rejects with
any other error. -/
inductive FsOutcome where
  | ok
  | enoent
  | fail
deriving DecidableEq, Repr

/-- Errors a reconciliation pass can reject with. -/
inductive PError where
  | invalidFilePath
  | fsError
  | runtimeError
  | processCanceled (msg : String)
deriving DecidableEq, Repr

/-- The action an entry is grouped under (externalChanges.ts lines
37 to 44): a newest decision is regrouped as drop when the source
modification time is strictly greater than the destination one and
as import otherwise; every other action keeps its own tag. -/
def resolveAction (e : IFileEntry) : String :=
  if e.action = "newest" then
    if e.sourceModified > e.destModified then "drop" else "import"
  else e.action

/-- The group actionGroups[a] built by the reduce over fileActions:
the entries whose resolved action is a, in input order. -/
def actionGroup (fileActions : List IFileEntry) (a : String) : List IFileEntry :=
  fileActions.filter (fun e => resolveAction e = a)

/-- The mapper of the drop step (lines 50 to 54): with a truthy file
path the deployed file outputPath/filePath is removed, otherwise the
mapper rejects with the invalid file path error and no operation is
issued. -/
def dropOp (outputPath : String) (e : IFileEntry) : Option FileOp :=
  match e.filePath with
  | some p => if p = "" then none else some (.remove (joinPath [outputPath, p]))
  | none => none

/-- The mapper of the delete step (lines 55 to 58): with a truthy file
path the staging file sourcePath/source/filePath is removed, otherwise
the mapper rejects with the invalid file path error. -/
def deleteOp (sourcePath : String) (e : IFileEntry) : Option FileOp :=
  match e.filePath with
  | some p => if p = "" then none else some (.remove (joinPath [sourcePath, e.source, p]))
  | none => none

/-- Operations initiated by one remove-style group (drop or delete).
Promise.map invokes the mapper on every element of the group, so every
valid entry issues its remove even when another entry of the same group
rejects; invalid entries issue nothing. -/
def groupOps (mkOp : IFileEntry → Option FileOp) (entries : List IFileEntry) :
    List FileOp :=
  entries.filterMap mkOp

/-- The error a remove-style group settles with, scanning the entries in
order: an entry without a truthy file path rejects with the invalid file
path error, a failing filesystem operation rejects with a filesystem
error, and a group whose entries all succeed settles with none. -/
def groupError (oracle : FileOp → FsOutcome) (mkOp : IFileEntry → Option FileOp) :
    List IFileEntry → Option PError
  | [] => none
  | e :: rest =>
    match mkOp e with
    | none => some .invalidFilePath
    | some op =>
      if oracle op = FsOutcome.ok then groupError oracle mkOp rest
      else some .fsError

/-- Result of executing one import entry: the filesystem operations it
initiated, whether the file disappeared warning was logged, and the
error it rejects with if any. -/
structure ImportEntryResult where
  ops : List FileOp
  warned : Bool
  err : Option PError
deriving DecidableEq, Repr

/-- The mapper of the import step (lines 59 to 72): the staging copy at
sourcePath/source/filePath is removed first, then the deployed file
outputPath/filePath is moved onto it with overwrite enabled; an ENOENT
rejection of either operation is caught and logged as a file
disappeared warning, any other rejection propagates.  An undefined file
path makes path.join throw, which bluebird turns into a rejection. -/
def importEntry (oracle : FileOp → FsOutcome) (sourcePath outputPath : String)
    (e : IFileEntry) : ImportEntryResult :=
  match e.filePath with
  | none => { ops := [], warned := false, err := some .runtimeError }
  | some p =>
    let source := joinPath [sourcePath, e.source, p]
    let deployed := joinPath [outputPath, p]
    let rm : FileOp := .remove source
    match oracle rm with
    | .ok =>
      let mv : FileOp := .move deployed source true
      match oracle mv with
      | .ok => { ops := [rm, mv], warned := false, err := none }
      | .enoent => { ops := [rm, mv], warned := true, err := none }
      | .fail => { ops := [rm, mv], warned := false, err := some .fsError }
    | .enoent => { ops := [rm], warned := true, err := none }
    | .fail => { ops := [rm], warned := false, err := some .fsError }

/-- Operations initiated by the import group: every mapper is invoked,
each contributing the operations of its own remove-then-move chain. -/
def importOps (oracle : FileOp → FsOutcome) (sourcePath outputPath : String)
    (entries : List IFileEntry) : List FileOp :=
  entries.flatMap (fun e => (importEntry oracle sourcePath outputPath e).ops)

/-- The error the import group settles with: the error of the first
entry in order whose chain rejects, none when every entry settles. -/
def importError (oracle : FileOp → FsOutcome) (sourcePath outputPath : String) :
    List IFileEntry → Option PError
  | [] => none
  | e :: rest =>
    match (importEntry oracle sourcePath outputPath e).err with
    | some err => some err
    | none => importError oracle sourcePath outputPath rest

/-- The set of relative paths whose manifest rows are discarded (lines
77 to 85): the file paths of every restore, drop, delete and import
entry, with newest entries already regrouped as drop or import. -/
def dropSet (fileActions : List IFileEntry) : List (Option String) :=
  (actionGroup fileActions "restore" ++ actionGroup fileActions "drop" ++
   actionGroup fileActions "delete" ++ actionGroup fileActions "import").map
    (fun e => e.filePath)

/-- The manifest rebuild (line 86): keep exactly the rows whose relPath
is not in the drop set. -/
def newDeployment (fileActions : List IFileEntry)
    (lastDeployment : List IDeployedFile) : List IDeployedFile :=
  lastDeployment.filter (fun entry => !((dropSet fileActions).contains (some entry.relPath)))

/-- The membership check of line 94 as written in the code. -/
def notifiedActions : List String :=
  ["import", "newest", "nop", "delete", "drop"]

/-- Insertion into the affectedMods javascript Set: appended when not
yet present, ignored otherwise. -/
def jsSetAdd (acc : List String) (s : String) : List String :=
  if s ∈ acc then acc else acc ++ [s]

/-- The affectedMods set (lines 91 to 97): the source mod ids of every
decision whose original action tag is import, newest, nop, delete or
drop, deduplicated in first-insertion order. -/
def affectedMods (fileActions : List IFileEntry) : List String :=
  fileActions.foldl
    (fun acc a => if a.action ∈ notifiedActions then jsSetAdd acc a.source else acc) []

/-- The game id passed to the mod-content-changed events (lines 99 to
111), exactly as the code computes it: when profileId is defined and
resolves to a profile the code assigns the id field of that profile,
otherwise it falls back to the active game id. -/
def eventGameId (state : AppState) (profileId : Option String) : Option String :=
  match profileId with
  | some pid =>
    match profileById state pid with
    | some profile => some profile.id
    | none => activeGameId state
  | none => activeGameId state

/-- Outcome of one applyFileActions call: the filesystem operations
initiated, the mod-content-changed events emitted as pairs of game id
and mod id, and either the updated manifest or the error the promise
chain rejected with. -/
structure ApplyOutcome where
  ops : List FileOp
  events : List (Option String × String)
  result : Except PError (List IDeployedFile)
deriving Repr

/-- Embedding of applyFileActions (lines 27 to 118).  An undefined
fileActions list resolves immediately with the unchanged manifest.
Otherwise the drop, delete and import groups run as consecutive
promise-chain steps: a step that rejects skips every later step, so its
error is the result and neither the manifest rebuild nor the event
emission happens; when every step settles, the manifest is rebuilt from
the drop set and one event per affected mod is emitted. -/
def applyFileActions (oracle : FileOp → FsOutcome) (state : AppState)
    (profileId : Option String) (sourcePath outputPath : String)
    (lastDeployment : List IDeployedFile)
    (fileActions : Option (List IFileEntry)) : ApplyOutcome :=
  match fileActions with
  | none => { ops := [], events := [], result := .ok lastDeployment }
  | some fa =>
    let dropGroup := actionGroup fa "drop"
    let deleteGroup := actionGroup fa "delete"
    let importGroup := actionGroup fa "import"
    let dropTrace := groupOps (dropOp outputPath) dropGroup
    match groupError oracle (dropOp outputPath) dropGroup with
    | some err => { ops := dropTrace, events := [], result := .error err }
    | none =>
      let deleteTrace := groupOps (deleteOp sourcePath) deleteGroup
      match groupError oracle (deleteOp sourcePath) deleteGroup with
      | some err =>
        { ops := dropTrace ++ deleteTrace, events := [], result := .error err }
      | none =>
        let importTrace := importOps oracle sourcePath outputPath importGroup
        match importError oracle sourcePath outputPath importGroup with
        | some err =>
          { ops := dropTrace ++ deleteTrace ++ importTrace,
            events := [], result := .error err }
        | none =>
          let gid := eventGameId state profileId
          { ops := dropTrace ++ deleteTrace ++ importTrace,
            events := (affectedMods fa).map (fun m => (gid, m)),
            result := .ok (newDeployment fa lastDeployment) }

/-- One activator.externalChanges query as issued by the detection loop
(line 144): the game id of the resolved profile, the staging path, the
mod path of the mod type, and the manifest entries of that type. -/
structure ActivatorQuery where
  gameId : String
  stagingPath : String
  modPath : String
  manifest : List IDeployedFile
deriving DecidableEq, Repr

/-- Outcome of one checkForExternalChanges call: the activator queries
issued in order and either the map of non-empty discrepancy lists keyed
by mod type or the error the pass rejected with. -/
structure CheckOutcome where
  queries : List ActivatorQuery
  result : Except PError (List (String × List IFileChange))
deriving Repr

/-- The sequential Promise.each loop of checkForExternalChanges (lines
140 to 152) over the keys of modPaths: for each mod type the code first
reads lastDeployment[typeId].length for the debug log, which throws a
runtime type error when that key is missing from lastDeployment; then
the activator is queried and a non-empty discrepancy list is recorded
under the mod type.  A rejection stops the iteration. -/
def checkLoop (activator : ActivatorQuery → List IFileChange) (gameId : String)
    (stagingPath : String)
    (lastDeployment : List (String × List IDeployedFile)) :
    List (String × String) → List ActivatorQuery × Except PError (List (String × List IFileChange))
  | [] => ([], .ok [])
  | (typeId, modPath) :: rest =>
    match lastDeployment.lookup typeId with
    | none => ([], .error .runtimeError)
    | some entries =>
      let q : ActivatorQuery :=
        { gameId := gameId, stagingPath := stagingPath, modPath := modPath,
          manifest := entries }
      let fileChanges := activator q
      let tail := checkLoop activator gameId stagingPath lastDeployment rest
      (q :: tail.1,
       tail.2.map (fun changes =>
         if fileChanges.length > 0 then (typeId, fileChanges) :: changes else changes))

/-- The profile resolution of checkForExternalChanges (lines 134 to
136): a defined profileId is looked up in the persistent profile table
(the getSafe call over persistent.profiles), an undefined one falls
back to the active profile. -/
def resolvedCheckProfile (state : AppState) (profileId : Option String) :
    Option IProfile :=
  match profileId with
  | some pid => state.profiles.lookup pid
  | none => activeProfile state

/-- Embedding of checkForExternalChanges (lines 120 to 153).  The
profile is resolved first; when no profile results, the pass rejects
with ProcessCanceled before any activator query is issued.  Otherwise
the mod types of modPaths are processed sequentially by the check
loop. -/
def checkForExternalChanges (activator : ActivatorQuery → List IFileChange)
    (state : AppState) (profileId : Option String) (stagingPath : String)
    (modPaths : List (String × String))
    (lastDeployment : List (String × List IDeployedFile)) : CheckOutcome :=
  match resolvedCheckProfile state profileId with
  | none => { queries := [], result := .error (.processCanceled "Profile no longer exists.") }
  | some profile =>
    let r := checkLoop activator profile.gameId stagingPath lastDeployment modPaths
    { queries := r.1, result := r.2 }

/-- Replacement of the entry of an association list under a key,
modelling the assignment lastDeployment[typeId] = newLastDeployment. -/
def updateAssoc (m : List (String × List IDeployedFile)) (key : String)
    (value : List IDeployedFile) : List (String × List IDeployedFile) :=
  m.map (fun p => if p.1 = key then (key, value) else p)

/-- Outcome of one dealWithExternalChanges call: the activator queries
and filesystem operations issued, the events emitted, the final state
of the caller supplied lastDeployment map after the in-place updates,
and the error the pass rejected with if any. -/
structure DealOutcome where
  queries : List ActivatorQuery
  ops : List FileOp
  events : List (Option String × String)
  final : List (String × List IDeployedFile)
  result : Except PError Unit
deriving Repr

/-- The sequential Promise.mapSeries loop of dealWithExternalChanges
(lines 171 to 175) over the keys of the original lastDeployment map:
each mod type runs applyFileActions on the current entry of the map,
the mod path of that type, and the decisions filtered to that mod type,
and on success assigns the updated manifest back into the map; a
rejection stops the iteration, leaving the updates already made. -/
def dealLoop (oracle : FileOp → FsOutcome) (state : AppState)
    (profileId : Option String) (stagingPath : String)
    (modPaths : List (String × String)) (fileActions : List IFileEntry) :
    List String → List (String × List IDeployedFile) →
    List FileOp × List (Option String × String) ×
      List (String × List IDeployedFile) × Except PError Unit
  | [], m => ([], [], m, .ok ())
  | typeId :: rest, m =>
    let entries := (m.lookup typeId).getD []
    let out := applyFileActions oracle state profileId stagingPath
      ((modPaths.lookup typeId).getD "undefined") entries
      (some (fileActions.filter (fun action => action.modTypeId = typeId)))
    match out.result with
    | .error e => (out.ops, out.events, m, .error e)
    | .ok newLastDeployment =>
      let tail := dealLoop oracle state profileId stagingPath modPaths fileActions
        rest (updateAssoc m typeId newLastDeployment)
      (out.ops ++ tail.1, out.events ++ tail.2.1, tail.2.2.1, tail.2.2.2)

/-- The decision list handed to the reconciliation loop (lines 162 to
170): a non-empty discrepancy map is shown to the decision dialog,
whose answer is used verbatim; an empty one short-circuits to the empty
decision list. -/
def dialogActions (dialog : List (String × List IFileChange) → List IFileEntry)
    (changes : List (String × List IFileChange)) : List IFileEntry :=
  if changes.length > 0 then dialog changes else []

/-- Embedding of dealWithExternalChanges (lines 155 to 176).  The
detection pass runs first and its rejection aborts everything with the
map untouched.  When it yields a non-empty discrepancy map, the
decision dialog is consulted (modelled by the dialog parameter); an
empty discrepancy map yields the empty decision list directly.  The
decisions are then applied type by type over the keys of the caller
supplied map, mutating it in place. -/
def dealWithExternalChanges (oracle : FileOp → FsOutcome)
    (activator : ActivatorQuery → List IFileChange)
    (dialog : List (String × List IFileChange) → List IFileEntry)
    (state : AppState) (profileId : Option String) (stagingPath : String)
    (modPaths : List (String × String))
    (lastDeployment : List (String × List IDeployedFile)) : DealOutcome :=
  let check := checkForExternalChanges activator state profileId stagingPath
    modPaths lastDeployment
  match check.result with
  | .error e =>
    { queries := check.queries, ops := [], events := [],
      final := lastDeployment, result := .error e }
  | .ok changes =>
    let r := dealLoop oracle state profileId stagingPath modPaths
      (dialogActions dialog changes) (lastDeployment.map (fun p => p.1)) lastDeployment
    { queries := check.queries, ops := r.1, events := r.2.1,
      final := r.2.2.1, result := r.2.2.2 }

/-- The actions whose file paths enter the drop set of the manifest
rebuild. -/
def droppedActions : List String :=
  ["restore", "drop", "delete", "import"]

/-
Theorems.  Each claim of the specification is settled below; helper
lemmas shared between several proofs come first.
-/

/-- C8: applyFileActions with an undefined or an empty decision list
initiates no file operation, emits no event, and returns a manifest
equal to the input lastDeployment, so a repeated reconciliation pass
over an empty discrepancy set is the identity on the manifest. -/
theorem applyFileActions_empty_identity (oracle : FileOp → FsOutcome)
    (state : AppState) (profileId : Option String)
    (sourcePath outputPath : String) (lastDeployment : List IDeployedFile) :
    applyFileActions oracle state profileId sourcePath outputPath
        lastDeployment none =
      { ops := [], events := [], result := .ok lastDeployment } ∧
    applyFileActions oracle state profileId sourcePath outputPath
        lastDeployment (some []) =
      { ops := [], events := [], result := .ok lastDeployment } := by
  constructor
  · rfl
  · simp only [applyFileActions, actionGroup, List.filter_nil, groupOps,
      List.filterMap_nil, groupError, importOps, List.flatMap_nil, importError,
      affectedMods, List.foldl_nil, List.map_nil, newDeployment, dropSet,
      List.append_nil, List.contains_nil, Bool.not_false, List.filter_true]

/-- C2: within applyFileActions, a decision whose action is newest is
grouped as drop exactly when the modification time of the source file
is strictly greater than that of the destination file, and as import
otherwise, so equal timestamps resolve to import. -/
theorem newest_resolves_by_mtime (fileActions : List IFileEntry)
    (e : IFileEntry) (hmem : e ∈ fileActions) (hact : e.action = "newest") :
    (e ∈ actionGroup fileActions "drop" ↔ e.destModified < e.sourceModified) ∧
    (e ∈ actionGroup fileActions "import" ↔ e.sourceModified ≤ e.destModified) := by
  have hres : resolveAction e =
      if e.sourceModified > e.destModified then "drop" else "import" := by
    simp [resolveAction, hact]
  constructor
  · simp only [actionGroup, List.mem_filter, hmem, true_and, decide_eq_true_eq, hres]
    split
    · simpa using by omega
    · simp only [String.reduceEq, false_iff]
      omega
  · simp only [actionGroup, List.mem_filter, hmem, true_and, decide_eq_true_eq, hres]
    split
    · simp only [String.reduceEq, false_iff]
      omega
    · simpa using by omega

/-- Concrete newest decision used by the witness of the newest
resolution theorem: the source copy is strictly newer. -/
def newestEntry : IFileEntry :=
  { action := "newest", filePath := some "a.txt", source := "modA",
    modTypeId := "", sourceModified := 5, destModified := 3 }

/-- Witness for C2 at a concrete decision whose source copy has the
strictly newer modification time. -/
theorem newest_resolves_by_mtime_witness :
    (newestEntry ∈ actionGroup [newestEntry] "drop" ↔
      newestEntry.destModified < newestEntry.sourceModified) ∧
    (newestEntry ∈ actionGroup [newestEntry] "import" ↔
      newestEntry.sourceModified ≤ newestEntry.destModified) :=
  newest_resolves_by_mtime _ _ (List.mem_singleton_self _) rfl

/-- C7: the failing input for the event game id.  A profile whose id
differs from its game id is registered under its id; a nop decision for
mod modA then makes applyFileActions emit the mod-content-changed event
with the profile id profile1 as its game id argument, not the game id
game1 of that profile, because line 105 of externalChanges.ts assigns
profile.id where profile.gameId is meant (the sibling
checkForExternalChanges uses profile.gameId, line 144). -/
theorem modContentChanged_carries_profileId :
    (applyFileActions (fun _ => FsOutcome.ok)
        { profiles := [("profile1", { id := "profile1", gameId := "game1" })],
          activeProfileId := some "profile1" }
        (some "profile1") "staging" "output" []
        (some [{ action := "nop", filePath := some "a.txt", source := "modA",
                 modTypeId := "", sourceModified := 0, destModified := 0 }])).events =
      [(some "profile1", "modA")] ∧
    ("profile1" : String) ≠
      ({ id := "profile1", gameId := "game1" } : IProfile).gameId := by
  exact ⟨rfl, by decide⟩

/-- C5: an import decision for file path p of mod m first removes the
staging copy sourcePath/m/p and only then, and only when the removal
succeeded, moves the deployed file outputPath/p onto it with overwrite
enabled; an ENOENT failure of either operation completes the decision
with the file disappeared warning instead of an error, and a fully
successful chain completes without error or warning. -/
theorem importEntry_remove_then_move (oracle : FileOp → FsOutcome)
    (sourcePath outputPath : String) (e : IFileEntry) (p : String)
    (hp : e.filePath = some p) :
    (importEntry oracle sourcePath outputPath e).ops =
      (if oracle (.remove (joinPath [sourcePath, e.source, p])) = .ok then
        [.remove (joinPath [sourcePath, e.source, p]),
         .move (joinPath [outputPath, p]) (joinPath [sourcePath, e.source, p]) true]
      else [.remove (joinPath [sourcePath, e.source, p])]) ∧
    (oracle (.remove (joinPath [sourcePath, e.source, p])) = .enoent ∨
      (oracle (.remove (joinPath [sourcePath, e.source, p])) = .ok ∧
       oracle (.move (joinPath [outputPath, p])
         (joinPath [sourcePath, e.source, p]) true) = .enoent) →
      (importEntry oracle sourcePath outputPath e).err = none ∧
      (importEntry oracle sourcePath outputPath e).warned = true) ∧
    (oracle (.remove (joinPath [sourcePath, e.source, p])) = .ok ∧
      oracle (.move (joinPath [outputPath, p])
        (joinPath [sourcePath, e.source, p]) true) = .ok →
      (importEntry oracle sourcePath outputPath e).err = none ∧
      (importEntry oracle sourcePath outputPath e).warned = false) := by
  simp only [importEntry, hp]
  cases h1 : oracle (.remove (joinPath [sourcePath, e.source, p])) <;>
    cases h2 : oracle (.move (joinPath [outputPath, p])
      (joinPath [sourcePath, e.source, p]) true) <;>
    simp [h1, h2]

/-- Concrete import decision used by the witness of the import
ordering theorem. -/
def importedEntry : IFileEntry :=
  { action := "import", filePath := some "b.txt", source := "modB",
    modTypeId := "", sourceModified := 0, destModified := 4 }

/-- Concrete filesystem oracle for the import witness: the staging
removal succeeds and the move back into staging reports ENOENT. -/
def importWitnessOracle : FileOp → FsOutcome
  | .remove _ => .ok
  | .move _ _ _ => .enoent

/-- Witness for C5: on the concrete oracle the chain issues the remove
followed by the overwriting move, and the ENOENT of the move completes
the decision with a warning and no error. -/
theorem importEntry_remove_then_move_witness :
    ((importEntry importWitnessOracle "staging" "output" importedEntry).ops =
      (if importWitnessOracle (.remove (joinPath ["staging", importedEntry.source, "b.txt"])) = .ok then
        [.remove (joinPath ["staging", importedEntry.source, "b.txt"]),
         .move (joinPath ["output", "b.txt"]) (joinPath ["staging", importedEntry.source, "b.txt"]) true]
      else [.remove (joinPath ["staging", importedEntry.source, "b.txt"])])) ∧
    (importWitnessOracle (.remove (joinPath ["staging", importedEntry.source, "b.txt"])) = .enoent ∨
      (importWitnessOracle (.remove (joinPath ["staging", importedEntry.source, "b.txt"])) = .ok ∧
       importWitnessOracle (.move (joinPath ["output", "b.txt"])
         (joinPath ["staging", importedEntry.source, "b.txt"]) true) = .enoent) →
      (importEntry importWitnessOracle "staging" "output" importedEntry).err = none ∧
      (importEntry importWitnessOracle "staging" "output" importedEntry).warned = true) ∧
    (importWitnessOracle (.remove (joinPath ["staging", importedEntry.source, "b.txt"])) = .ok ∧
      importWitnessOracle (.move (joinPath ["output", "b.txt"])
        (joinPath ["staging", importedEntry.source, "b.txt"]) true) = .ok →
      (importEntry importWitnessOracle "staging" "output" importedEntry).err = none ∧
      (importEntry importWitnessOracle "staging" "output" importedEntry).warned = false) :=
  importEntry_remove_then_move importWitnessOracle "staging" "output" importedEntry "b.txt" rfl

/-- A drop mapper yields no operation exactly for a non truthy file
path. -/
lemma dropOp_eq_none_iff (outputPath : String) (e : IFileEntry) :
    dropOp outputPath e = none ↔ truthy e.filePath = false := by
  cases h : e.filePath with
  | none => simp [dropOp, truthy, h]
  | some p => by_cases hp : p = "" <;> simp [dropOp, truthy, h, hp]

/-- A delete mapper yields no operation exactly for a non truthy file
path. -/
lemma deleteOp_eq_none_iff (sourcePath : String) (e : IFileEntry) :
    deleteOp sourcePath e = none ↔ truthy e.filePath = false := by
  cases h : e.filePath with
  | none => simp [deleteOp, truthy, h]
  | some p => by_cases hp : p = "" <;> simp [deleteOp, truthy, h, hp]

/-- A remove style group whose entries all carry a valid operation
settles without error under an oracle that never fails. -/
lemma groupError_eq_none (oracle : FileOp → FsOutcome)
    (mkOp : IFileEntry → Option FileOp) (entries : List IFileEntry)
    (hvalid : ∀ e ∈ entries, (mkOp e).isSome)
    (hok : ∀ op, oracle op = FsOutcome.ok) :
    groupError oracle mkOp entries = none := by
  induction entries with
  | nil => rfl
  | cons e rest ih =>
    have he := hvalid e (List.mem_cons_self e rest)
    cases h : mkOp e with
    | none => rw [h] at he; simp at he
    | some op =>
      simp only [groupError, h, hok op, if_pos rfl]
      exact ih (fun x hx => hvalid x (List.mem_cons_of_mem e hx))

/-- A remove style group containing an entry without a valid operation
rejects with the invalid file path error under an oracle that never
fails. -/
lemma groupError_eq_invalid (oracle : FileOp → FsOutcome)
    (mkOp : IFileEntry → Option FileOp) (entries : List IFileEntry)
    (hok : ∀ op, oracle op = FsOutcome.ok)
    (hbad : ∃ e ∈ entries, mkOp e = none) :
    groupError oracle mkOp entries = some .invalidFilePath := by
  induction entries with
  | nil => simp at hbad
  | cons e rest ih =>
    cases h : mkOp e with
    | none => simp [groupError, h]
    | some op =>
      simp only [groupError, h, hok op, if_pos rfl]
      obtain ⟨x, hx, hxnone⟩ := hbad
      rcases List.mem_cons.mp hx with heq | hrest
      · rw [heq, h] at hxnone; cases hxnone
      · exact ih ⟨x, hrest, hxnone⟩

/-- Every operation a drop group initiates is a remove. -/
lemma groupOps_dropOp_remove (outputPath : String) (l : List IFileEntry)
    (op : FileOp) (hmem : op ∈ groupOps (dropOp outputPath) l) :
    ∃ q, op = FileOp.remove q := by
  simp only [groupOps, List.mem_filterMap] at hmem
  obtain ⟨e, _, he⟩ := hmem
  cases h : e.filePath with
  | none => simp [dropOp, h] at he
  | some p =>
    by_cases hp : p = ""
    · simp [dropOp, h, hp] at he
    · simp only [dropOp, h, if_neg hp, Option.some.injEq] at he
      exact ⟨_, he.symm⟩

/-- Every operation a delete group initiates is a remove. -/
lemma groupOps_deleteOp_remove (sourcePath : String) (l : List IFileEntry)
    (op : FileOp) (hmem : op ∈ groupOps (deleteOp sourcePath) l) :
    ∃ q, op = FileOp.remove q := by
  simp only [groupOps, List.mem_filterMap] at hmem
  obtain ⟨e, _, he⟩ := hmem
  cases h : e.filePath with
  | none => simp [deleteOp, h] at he
  | some p =>
    by_cases hp : p = ""
    · simp [deleteOp, h, hp] at he
    · simp only [deleteOp, h, if_neg hp, Option.some.injEq] at he
      exact ⟨_, he.symm⟩

/-- Concrete drop decision with an undefined file path, used by the C4
counterexample. -/
def badDropEntry : IFileEntry :=
  { action := "drop", filePath := none, source := "modA",
    modTypeId := "", sourceModified := 0, destModified := 0 }

/-- Concrete valid delete decision, used by the C4 counterexample. -/
def goodDeleteEntry : IFileEntry :=
  { action := "delete", filePath := some "y.txt", source := "modB",
    modTypeId := "", sourceModified := 0, destModified := 0 }

/-- C4 counterexample: with a drop decision whose file path is
undefined next to a perfectly valid delete decision, applyFileActions
rejects the whole pass with the invalid file path error, the delete
decision is never applied (no operation at all is issued, in particular
not the staging removal of the delete entry), no event is emitted and
the manifest rebuild never runs, refuting that the remaining decisions
of the pass are still applied. -/
theorem invalid_drop_aborts_other_decisions :
    (applyFileActions (fun _ => FsOutcome.ok)
        { profiles := [], activeProfileId := none } none "staging" "output"
        [{ relPath := "y.txt", source := "modB", sourcePath := "y.txt", time := 0 }]
        (some [badDropEntry, goodDeleteEntry])) =
      { ops := [], events := [], result := .error .invalidFilePath } ∧
    FileOp.remove (joinPath ["staging", "modB", "y.txt"]) ∉
      (applyFileActions (fun _ => FsOutcome.ok)
        { profiles := [], activeProfileId := none } none "staging" "output"
        [{ relPath := "y.txt", source := "modB", sourcePath := "y.txt", time := 0 }]
        (some [badDropEntry, goodDeleteEntry])).ops := by
  constructor
  · rfl
  · intro hmem
    simp [applyFileActions, badDropEntry, goodDeleteEntry, actionGroup,
      resolveAction, groupError, dropOp, groupOps] at hmem

/-- C4 as amended: a drop or delete decision with an empty or undefined
file path makes that group reject with the invalid file path error, and
the rejection aborts the rest of the pass; even when every filesystem
operation would succeed, applyFileActions returns that error, emits no
mod-content-changed event, performs no manifest rebuild and never
reaches the import step, so no move operation is initiated. -/
theorem invalid_path_rejects_whole_pass (oracle : FileOp → FsOutcome)
    (state : AppState) (profileId : Option String)
    (sourcePath outputPath : String) (lastDeployment : List IDeployedFile)
    (fa : List IFileEntry)
    (hok : ∀ op, oracle op = FsOutcome.ok)
    (hbad : ∃ e ∈ actionGroup fa "drop" ++ actionGroup fa "delete",
      truthy e.filePath = false) :
    (applyFileActions oracle state profileId sourcePath outputPath
        lastDeployment (some fa)).result = .error .invalidFilePath ∧
    (applyFileActions oracle state profileId sourcePath outputPath
        lastDeployment (some fa)).events = [] ∧
    ∀ op ∈ (applyFileActions oracle state profileId sourcePath outputPath
        lastDeployment (some fa)).ops, ∀ src dest ovw, op ≠ FileOp.move src dest ovw := by
  by_cases hd : ∃ e ∈ actionGroup fa "drop", dropOp outputPath e = none
  · have h1 : groupError oracle (dropOp outputPath) (actionGroup fa "drop") =
        some .invalidFilePath := groupError_eq_invalid _ _ _ hok hd
    simp only [applyFileActions, h1]
    refine ⟨trivial, trivial, ?_⟩
    intro op hop src dest ovw heq
    obtain ⟨q, hq⟩ := groupOps_dropOp_remove outputPath _ op hop
    rw [hq] at heq; cases heq
  · push_neg at hd
    have hvalid : ∀ e ∈ actionGroup fa "drop", (dropOp outputPath e).isSome := by
      intro e he
      cases h : dropOp outputPath e with
      | none => exact absurd h (hd e he)
      | some op => simp
    have h1 : groupError oracle (dropOp outputPath) (actionGroup fa "drop") = none :=
      groupError_eq_none _ _ _ hvalid hok
    obtain ⟨e, hmem, hfalse⟩ := hbad
    have hdel : e ∈ actionGroup fa "delete" := by
      rcases List.mem_append.mp hmem with hdrop | hdel
      · exact absurd ((dropOp_eq_none_iff outputPath e).mpr hfalse) (hd e hdrop)
      · exact hdel
    have h2 : groupError oracle (deleteOp sourcePath) (actionGroup fa "delete") =
        some .invalidFilePath :=
      groupError_eq_invalid _ _ _ hok
        ⟨e, hdel, (deleteOp_eq_none_iff sourcePath e).mpr hfalse⟩
    simp only [applyFileActions, h1, h2]
    refine ⟨trivial, trivial, ?_⟩
    intro op hop src dest ovw heq
    rcases List.mem_append.mp hop with h | h
    · obtain ⟨q, hq⟩ := groupOps_dropOp_remove outputPath _ op h
      rw [hq] at heq; cases heq
    · obtain ⟨q, hq⟩ := groupOps_deleteOp_remove sourcePath _ op h
      rw [hq] at heq; cases heq

/-- Witness for the amended C4 at the concrete counterexample input. -/
theorem invalid_path_rejects_whole_pass_witness :
    (applyFileActions (fun _ => FsOutcome.ok)
        { profiles := [], activeProfileId := none } none "staging" "output"
        [{ relPath := "y.txt", source := "modB", sourcePath := "y.txt", time := 0 }]
        (some [badDropEntry, goodDeleteEntry])).result = .error .invalidFilePath ∧
    (applyFileActions (fun _ => FsOutcome.ok)
        { profiles := [], activeProfileId := none } none "staging" "output"
        [{ relPath := "y.txt", source := "modB", sourcePath := "y.txt", time := 0 }]
        (some [badDropEntry, goodDeleteEntry])).events = [] ∧
    ∀ op ∈ (applyFileActions (fun _ => FsOutcome.ok)
        { profiles := [], activeProfileId := none } none "staging" "output"
        [{ relPath := "y.txt", source := "modB", sourcePath := "y.txt", time := 0 }]
        (some [badDropEntry, goodDeleteEntry])).ops,
      ∀ src dest ovw, op ≠ FileOp.move src dest ovw :=
  invalid_path_rejects_whole_pass (fun _ => FsOutcome.ok)
    { profiles := [], activeProfileId := none } none "staging" "output"
    [{ relPath := "y.txt", source := "modB", sourcePath := "y.txt", time := 0 }]
    [badDropEntry, goodDeleteEntry] (fun _ => rfl)
    ⟨badDropEntry, by decide, rfl⟩

/-- A successful applyFileActions pass produced its manifest by the
drop set rebuild and its events from the affected mod set. -/
lemma applyFileActions_ok_spec (oracle : FileOp → FsOutcome) (state : AppState)
    (profileId : Option String) (sourcePath outputPath : String)
    (lastDeployment : List IDeployedFile) (fa : List IFileEntry)
    (m' : List IDeployedFile)
    (h : (applyFileActions oracle state profileId sourcePath outputPath
        lastDeployment (some fa)).result = .ok m') :
    m' = newDeployment fa lastDeployment ∧
    (applyFileActions oracle state profileId sourcePath outputPath
        lastDeployment (some fa)).events =
      (affectedMods fa).map (fun m => (eventGameId state profileId, m)) := by
  cases h1 : groupError oracle (dropOp outputPath) (actionGroup fa "drop") with
  | some err => simp [applyFileActions, h1] at h
  | none =>
    cases h2 : groupError oracle (deleteOp sourcePath) (actionGroup fa "delete") with
    | some err => simp [applyFileActions, h1, h2] at h
    | none =>
      cases h3 : importError oracle sourcePath outputPath (actionGroup fa "import") with
      | some err => simp [applyFileActions, h1, h2, h3] at h
      | none =>
        simp only [applyFileActions, h1, h2, h3, Except.ok.injEq] at h
        exact ⟨h.symm, by simp only [applyFileActions, h1, h2, h3]⟩

/-- Membership in the drop set of a decision list. -/
lemma mem_dropSet (fa : List IFileEntry) (x : Option String) :
    x ∈ dropSet fa ↔ ∃ d ∈ fa, resolveAction d ∈ droppedActions ∧ d.filePath = x := by
  simp only [dropSet, actionGroup, droppedActions, List.mem_map, List.mem_append,
    List.mem_filter, decide_eq_true_eq, List.mem_cons, List.not_mem_nil, or_false,
    List.mem_singleton]
  constructor
  · rintro ⟨e, hcases, hfp⟩
    refine ⟨e, ?_, ?_, hfp⟩ <;> tauto
  · rintro ⟨d, hd, hact, hfp⟩
    refine ⟨d, ?_, hfp⟩
    tauto

/-- C1: whenever applyFileActions succeeds on a decision list, the
returned manifest consists of exactly those rows of the prior manifest
whose relPath equals the filePath of no decision resolving to restore,
drop, delete or import (a newest decision counting as the drop
or import it resolves to); in particular rows only touched by nop
decisions are retained unchanged. -/
theorem applyFileActions_rebuilds_manifest (oracle : FileOp → FsOutcome)
    (state : AppState) (profileId : Option String)
    (sourcePath outputPath : String) (lastDeployment : List IDeployedFile)
    (fa : List IFileEntry) (m' : List IDeployedFile)
    (h : (applyFileActions oracle state profileId sourcePath outputPath
        lastDeployment (some fa)).result = .ok m') :
    m' = lastDeployment.filter (fun entry =>
      decide (∀ d ∈ fa, resolveAction d ∈ droppedActions →
        d.filePath ≠ some entry.relPath)) := by
  obtain ⟨hm, -⟩ := applyFileActions_ok_spec oracle state profileId sourcePath
    outputPath lastDeployment fa m' h
  rw [hm, newDeployment]
  apply List.filter_congr
  intro entry _
  cases hc : (dropSet fa).contains (some entry.relPath) with
  | true =>
    have hmem : (some entry.relPath) ∈ dropSet fa := List.elem_iff.mp hc
    obtain ⟨d, hd, hact, hfp⟩ := (mem_dropSet fa (some entry.relPath)).mp hmem
    have : ¬ (∀ d ∈ fa, resolveAction d ∈ droppedActions →
        d.filePath ≠ some entry.relPath) := fun hall => hall d hd hact hfp
    simp [this]
  | false =>
    have hnot : (some entry.relPath) ∉ dropSet fa := by
      intro hmem
      have hx : (dropSet fa).contains (some entry.relPath) = true :=
        List.elem_iff.mpr hmem
      rw [hc] at hx
      simp at hx
    have hall : ∀ d ∈ fa, resolveAction d ∈ droppedActions →
        d.filePath ≠ some entry.relPath := by
      intro d hd hact hfp
      exact hnot ((mem_dropSet fa (some entry.relPath)).mpr ⟨d, hd, hact, hfp⟩)
    simp only [Bool.not_false]
    exact (decide_eq_true hall).symm

/-- Concrete two row manifest used by the manifest rebuild witness. -/
def rebuildManifest : List IDeployedFile :=
  [{ relPath := "a.txt", source := "modA", sourcePath := "a.txt", time := 1 },
   { relPath := "b.txt", source := "modB", sourcePath := "b.txt", time := 2 }]

/-- Concrete one decision list used by the manifest rebuild witness:
one drop decision touching the first row. -/
def rebuildActions : List IFileEntry :=
  [{ action := "drop", filePath := some "a.txt", source := "modA",
     modTypeId := "", sourceModified := 0, destModified := 0 }]

/-- Witness for C1: a pass with one drop decision over a two row
manifest succeeds and keeps exactly the untouched row. -/
theorem applyFileActions_rebuilds_manifest_witness :
    (applyFileActions (fun _ => FsOutcome.ok)
        { profiles := [], activeProfileId := none } none "staging" "output"
        rebuildManifest (some rebuildActions)).result =
      .ok (rebuildManifest.filter (fun entry =>
        decide (∀ d ∈ rebuildActions, resolveAction d ∈ droppedActions →
          d.filePath ≠ some entry.relPath))) := by
  have h : (applyFileActions (fun _ => FsOutcome.ok)
        { profiles := [], activeProfileId := none } none "staging" "output"
        rebuildManifest (some rebuildActions)).result =
      .ok [{ relPath := "b.txt", source := "modB", sourcePath := "b.txt", time := 2 }] := rfl
  have heq := applyFileActions_rebuilds_manifest (fun _ => FsOutcome.ok)
    { profiles := [], activeProfileId := none } none "staging" "output"
    rebuildManifest rebuildActions _ h
  exact heq ▸ h

/-- Membership in a javascript Set after one insertion. -/
lemma mem_jsSetAdd (acc : List String) (s x : String) :
    x ∈ jsSetAdd acc s ↔ x ∈ acc ∨ x = s := by
  by_cases h : s ∈ acc
  · simp only [jsSetAdd, if_pos h]
    constructor
    · exact Or.inl
    · rintro (hx | rfl) <;> [exact hx; exact h]
  · simp [jsSetAdd, if_neg h]

/-- Insertion into a javascript Set preserves the absence of
duplicates. -/
lemma nodup_jsSetAdd (acc : List String) (s : String) (h : acc.Nodup) :
    (jsSetAdd acc s).Nodup := by
  by_cases hs : s ∈ acc
  · simpa [jsSetAdd, if_pos hs] using h
  · simp [jsSetAdd, if_neg hs, List.nodup_append, h, hs]

/-- Membership in the affectedMods fold, generalized over the
accumulator. -/
lemma mem_affectedFold (fa : List IFileEntry) (acc : List String) (x : String) :
    x ∈ fa.foldl (fun acc a =>
        if a.action ∈ notifiedActions then jsSetAdd acc a.source else acc) acc ↔
      x ∈ acc ∨ ∃ d ∈ fa, d.action ∈ notifiedActions ∧ d.source = x := by
  induction fa generalizing acc with
  | nil => simp
  | cons d rest ih =>
    simp only [List.foldl_cons]
    by_cases hd : d.action ∈ notifiedActions
    · rw [if_pos hd, ih, mem_jsSetAdd]
      simp only [List.mem_cons]
      constructor
      · rintro ((hx | rfl) | ⟨e, he, hP⟩)
        · exact Or.inl hx
        · exact Or.inr ⟨d, Or.inl rfl, hd, rfl⟩
        · exact Or.inr ⟨e, Or.inr he, hP⟩
      · rintro (hx | ⟨e, (rfl | he), hP, rfl⟩)
        · exact Or.inl (Or.inl hx)
        · exact Or.inl (Or.inr rfl)
        · exact Or.inr ⟨e, he, hP, rfl⟩
    · rw [if_neg hd, ih]
      simp only [List.mem_cons]
      constructor
      · rintro (hx | ⟨e, he, hP⟩)
        · exact Or.inl hx
        · exact Or.inr ⟨e, Or.inr he, hP⟩
      · rintro (hx | ⟨e, (rfl | he), hP, rfl⟩)
        · exact Or.inl hx
        · exact absurd hP hd
        · exact Or.inr ⟨e, he, hP, rfl⟩

/-- The affectedMods fold never introduces a duplicate. -/
lemma nodup_affectedFold (fa : List IFileEntry) (acc : List String)
    (h : acc.Nodup) :
    (fa.foldl (fun acc a =>
        if a.action ∈ notifiedActions then jsSetAdd acc a.source else acc) acc).Nodup := by
  induction fa generalizing acc with
  | nil => simpa
  | cons d rest ih =>
    simp only [List.foldl_cons]
    by_cases hd : d.action ∈ notifiedActions
    · rw [if_pos hd]
      exact ih _ (nodup_jsSetAdd acc d.source h)
    · rw [if_neg hd]
      exact ih _ h

/-- The affected mod set holds exactly the source mods of the notified
decisions, without duplicates. -/
lemma affectedMods_spec (fa : List IFileEntry) :
    (affectedMods fa).Nodup ∧
    ∀ x, x ∈ affectedMods fa ↔
      ∃ d ∈ fa, d.action ∈ notifiedActions ∧ d.source = x := by
  refine ⟨nodup_affectedFold fa [] List.nodup_nil, fun x => ?_⟩
  rw [affectedMods, mem_affectedFold]
  simp

/-- C6: whenever applyFileActions succeeds, the emitted
mod-content-changed events name each mod id exactly once when that mod
is the source of at least one decision whose action is import, newest,
nop, delete or drop, and never otherwise; in particular a mod occurring
only in restore decisions gets no event, and a mod with many affected
files still gets one single event. -/
theorem modContentChanged_once_per_mod (oracle : FileOp → FsOutcome)
    (state : AppState) (profileId : Option String)
    (sourcePath outputPath : String) (lastDeployment : List IDeployedFile)
    (fa : List IFileEntry) (m' : List IDeployedFile) (mid : String)
    (h : (applyFileActions oracle state profileId sourcePath outputPath
        lastDeployment (some fa)).result = .ok m') :
    ((applyFileActions oracle state profileId sourcePath outputPath
        lastDeployment (some fa)).events.map Prod.snd).count mid =
      if ∃ d ∈ fa, d.action ∈ notifiedActions ∧ d.source = mid then 1 else 0 := by
  obtain ⟨-, hev⟩ := applyFileActions_ok_spec oracle state profileId sourcePath
    outputPath lastDeployment fa m' h
  rw [hev]
  have hmap : ((affectedMods fa).map
      (fun m => (eventGameId state profileId, m))).map Prod.snd = affectedMods fa := by
    simp
  rw [hmap]
  obtain ⟨hnodup, hmem⟩ := affectedMods_spec fa
  by_cases hex : ∃ d ∈ fa, d.action ∈ notifiedActions ∧ d.source = mid
  · rw [if_pos hex]
    exact List.count_eq_one_of_mem hnodup ((hmem mid).mpr hex)
  · rw [if_neg hex]
    exact List.count_eq_zero.mpr (fun hm => hex ((hmem mid).mp hm))

/-- Concrete decision list for the event witness: two import decisions
of the same mod and one restore decision of another mod. -/
def eventActions : List IFileEntry :=
  [{ action := "import", filePath := some "a.txt", source := "modA",
     modTypeId := "", sourceModified := 0, destModified := 4 },
   { action := "import", filePath := some "b.txt", source := "modA",
     modTypeId := "", sourceModified := 0, destModified := 4 },
   { action := "restore", filePath := some "c.txt", source := "modC",
     modTypeId := "", sourceModified := 0, destModified := 0 }]

/-- Witness for C6 at the concrete decision list: the doubly affected
mod is counted exactly once. -/
theorem modContentChanged_once_per_mod_witness :
    ((applyFileActions (fun _ => FsOutcome.ok)
        { profiles := [], activeProfileId := none } none "staging" "output" []
        (some eventActions)).events.map Prod.snd).count "modA" =
      if ∃ d ∈ eventActions, d.action ∈ notifiedActions ∧ d.source = "modA"
      then 1 else 0 :=
  modContentChanged_once_per_mod (fun _ => FsOutcome.ok)
    { profiles := [], activeProfileId := none } none "staging" "output" []
    eventActions _ "modA" rfl

/-- C3: when neither the given profileId nor, for an undefined
profileId, the active profile resolves to an existing profile, the
whole detection and reconciliation pass rejects with the
ProcessCanceled error before anything happened: no activator query is
issued, no filesystem operation is performed, no event is emitted, and
the caller supplied lastDeployment map is left exactly as it was. -/
theorem missing_profile_aborts_pass (oracle : FileOp → FsOutcome)
    (activator : ActivatorQuery → List IFileChange)
    (dialog : List (String × List IFileChange) → List IFileEntry)
    (state : AppState) (profileId : Option String) (stagingPath : String)
    (modPaths : List (String × String))
    (lastDeployment : List (String × List IDeployedFile))
    (hmiss : resolvedCheckProfile state profileId = none) :
    dealWithExternalChanges oracle activator dialog state profileId
        stagingPath modPaths lastDeployment =
      { queries := [], ops := [], events := [], final := lastDeployment,
        result := .error (.processCanceled "Profile no longer exists.") } := by
  simp only [dealWithExternalChanges, checkForExternalChanges, hmiss]

/-- Witness for C3: a store without the requested profile makes the
pass abort and return the untouched one entry manifest map. -/
theorem missing_profile_aborts_pass_witness :
    dealWithExternalChanges (fun _ => FsOutcome.ok) (fun _ => [])
        (fun _ => []) { profiles := [], activeProfileId := none }
        (some "gone") "staging" [("", "output")]
        [("", [{ relPath := "a.txt", source := "modA", sourcePath := "a.txt", time := 1 }])] =
      { queries := [], ops := [], events := [],
        final := [("", [{ relPath := "a.txt", source := "modA", sourcePath := "a.txt", time := 1 }])],
        result := .error (.processCanceled "Profile no longer exists.") } :=
  missing_profile_aborts_pass (fun _ => FsOutcome.ok) (fun _ => [])
    (fun _ => []) { profiles := [], activeProfileId := none }
    (some "gone") "staging" [("", "output")]
    [("", [{ relPath := "a.txt", source := "modA", sourcePath := "a.txt", time := 1 }])] rfl

/-- A detection loop over a mod type whose manifest entry is missing
rejects with the runtime error. -/
lemma checkLoop_missing_key (activator : ActivatorQuery → List IFileChange)
    (gameId stagingPath : String)
    (lastDeployment : List (String × List IDeployedFile))
    (modPaths : List (String × String))
    (hmiss : ∃ tp ∈ modPaths, lastDeployment.lookup tp.1 = none) :
    (checkLoop activator gameId stagingPath lastDeployment modPaths).2 =
      .error .runtimeError := by
  induction modPaths with
  | nil => simp at hmiss
  | cons tp rest ih =>
    obtain ⟨q, hq, hnone⟩ := hmiss
    obtain ⟨typeId, modPath⟩ := tp
    rcases List.mem_cons.mp hq with rfl | hrest
    · simp only [checkLoop, hnone]
    · cases hl : lastDeployment.lookup typeId with
      | none => simp only [checkLoop, hl]
      | some entries =>
        simp only [checkLoop, hl]
        rw [ih ⟨q, hrest, hnone⟩]
        rfl

/-- C10: when the profile resolves but some mod type of modPaths has no
manifest entry at all in lastDeployment, checkForExternalChanges fails
with a runtime error (the read of lastDeployment[typeId].length on an
undefined entry) instead of treating the missing manifest as nothing
deployed yet. -/
theorem missing_manifest_key_crashes
    (activator : ActivatorQuery → List IFileChange) (state : AppState)
    (profileId : Option String) (stagingPath : String)
    (modPaths : List (String × String))
    (lastDeployment : List (String × List IDeployedFile)) (profile : IProfile)
    (hprof : resolvedCheckProfile state profileId = some profile)
    (hmiss : ∃ tp ∈ modPaths, lastDeployment.lookup tp.1 = none) :
    (checkForExternalChanges activator state profileId stagingPath modPaths
        lastDeployment).result = .error .runtimeError := by
  simp only [checkForExternalChanges, hprof]
  exact checkLoop_missing_key activator profile.gameId stagingPath
    lastDeployment modPaths hmiss

/-- Witness for C10: a mod type known to modPaths but absent from the
manifest map makes the detection pass fail with the runtime error. -/
theorem missing_manifest_key_crashes_witness :
    (checkForExternalChanges (fun _ => [])
        { profiles := [("p1", { id := "p1", gameId := "g1" })],
          activeProfileId := some "p1" }
        (some "p1") "staging" [("textures", "output")] []).result =
      .error .runtimeError :=
  missing_manifest_key_crashes (fun _ => [])
    { profiles := [("p1", { id := "p1", gameId := "g1" })],
      activeProfileId := some "p1" }
    (some "p1") "staging" [("textures", "output")] []
    { id := "p1", gameId := "g1" } rfl
    ⟨("textures", "output"), List.mem_singleton_self _, rfl⟩

/-- Looking up the assigned key after an association update yields the
new value, provided the key was present. -/
lemma updateAssoc_lookup_self (m : List (String × List IDeployedFile))
    (key : String) (v : List IDeployedFile) (h : (m.lookup key).isSome) :
    (updateAssoc m key v).lookup key = some v := by
  induction m with
  | nil => simp at h
  | cons p rest ih =>
    obtain ⟨a, b⟩ := p
    have hcons : updateAssoc ((a, b) :: rest) key v =
        (if a = key then (key, v) else (a, b)) :: updateAssoc rest key v := rfl
    by_cases hak : a = key
    · rw [hcons, if_pos hak]
      exact List.lookup_cons_self
    · rw [hcons, if_neg hak]
      have hbeq : (key == a) = false :=
        beq_eq_false_iff_ne.mpr (fun hh => hak hh.symm)
      rw [List.lookup_cons, hbeq]
      rw [List.lookup_cons, hbeq] at h
      exact ih h

/-- Looking up a different key after an association update is
unchanged. -/
lemma updateAssoc_lookup_ne (m : List (String × List IDeployedFile))
    (key : String) (v : List IDeployedFile) (k : String) (h : k ≠ key) :
    (updateAssoc m key v).lookup k = m.lookup k := by
  induction m with
  | nil => rfl
  | cons p rest ih =>
    obtain ⟨a, b⟩ := p
    have hcons : updateAssoc ((a, b) :: rest) key v =
        (if a = key then (key, v) else (a, b)) :: updateAssoc rest key v := rfl
    by_cases hak : a = key
    · rw [hcons, if_pos hak]
      have hbk : (k == key) = false := beq_eq_false_iff_ne.mpr h
      have hba : (k == a) = false :=
        beq_eq_false_iff_ne.mpr (fun hh => h (hh.trans hak))
      rw [List.lookup_cons, List.lookup_cons, hbk, hba]
      exact ih
    · rw [hcons, if_neg hak]
      rw [List.lookup_cons, List.lookup_cons]
      cases hba : k == a with
      | true => rfl
      | false => exact ih

/-- The reconciliation loop leaves the entry of a mod type it does not
process untouched. -/
lemma dealLoop_frame (oracle : FileOp → FsOutcome) (state : AppState)
    (profileId : Option String) (stagingPath : String)
    (modPaths : List (String × String)) (fileActions : List IFileEntry)
    (keys : List String) (typeId : String) (hnot : typeId ∉ keys) :
    ∀ m, ((dealLoop oracle state profileId stagingPath modPaths fileActions
        keys m).2.2.1).lookup typeId = m.lookup typeId := by
  induction keys with
  | nil => intro m; rfl
  | cons k rest ih =>
    intro m
    have hne : typeId ≠ k := fun hh => hnot (hh ▸ List.mem_cons_self k rest)
    have hrest : typeId ∉ rest := fun hh => hnot (List.mem_cons_of_mem k hh)
    cases hout : (applyFileActions oracle state profileId stagingPath
        ((modPaths.lookup k).getD "undefined") ((m.lookup k).getD [])
        (some (fileActions.filter (fun action => action.modTypeId = k)))).result with
    | error e => simp only [dealLoop, hout]
    | ok newDep =>
      simp only [dealLoop, hout]
      rw [ih hrest (updateAssoc m k newDep)]
      exact updateAssoc_lookup_ne m k newDep typeId hne

/-- The reconciliation loop over duplicate free keys assigns, for every
processed mod type present in the map, the manifest applyFileActions
produced for it, provided the loop as a whole succeeded. -/
lemma dealLoop_updates (oracle : FileOp → FsOutcome) (state : AppState)
    (profileId : Option String) (stagingPath : String)
    (modPaths : List (String × String)) (fileActions : List IFileEntry)
    (keys : List String) :
    keys.Nodup →
    ∀ m typeId entries, typeId ∈ keys → m.lookup typeId = some entries →
    (dealLoop oracle state profileId stagingPath modPaths fileActions
        keys m).2.2.2 = .ok () →
    ∃ m', (applyFileActions oracle state profileId stagingPath
        ((modPaths.lookup typeId).getD "undefined") entries
        (some (fileActions.filter (fun action => action.modTypeId = typeId)))).result =
          .ok m' ∧
      ((dealLoop oracle state profileId stagingPath modPaths fileActions
          keys m).2.2.1).lookup typeId = some m' := by
  induction keys with
  | nil =>
    intro _ m typeId entries hmem
    simp at hmem
  | cons k rest ih =>
    intro hnodup m typeId entries hmem hlook hres
    have hkrest : k ∉ rest := (List.nodup_cons.mp hnodup).1
    have hrestnodup : rest.Nodup := (List.nodup_cons.mp hnodup).2
    cases hout : (applyFileActions oracle state profileId stagingPath
        ((modPaths.lookup k).getD "undefined") ((m.lookup k).getD [])
        (some (fileActions.filter (fun action => action.modTypeId = k)))).result with
    | error e =>
      rw [show (dealLoop oracle state profileId stagingPath modPaths fileActions
          (k :: rest) m).2.2.2 = .error e by simp only [dealLoop, hout]] at hres
      cases hres
    | ok newDep =>
      rcases List.mem_cons.mp hmem with rfl | hmemrest
      · have hentries : (m.lookup typeId).getD [] = entries := by
          rw [hlook]
          rfl
        refine ⟨newDep, ?_, ?_⟩
        · rw [← hentries]
          exact hout
        · simp only [dealLoop, hout]
          rw [dealLoop_frame oracle state profileId stagingPath modPaths
            fileActions rest typeId hkrest (updateAssoc m typeId newDep)]
          exact updateAssoc_lookup_self m typeId newDep (by rw [hlook]; rfl)
      · have hne : typeId ≠ k := fun hh => hkrest (hh ▸ hmemrest)
        have hlook2 : (updateAssoc m k newDep).lookup typeId = some entries := by
          rw [updateAssoc_lookup_ne m k newDep typeId hne]
          exact hlook
        have hres2 : (dealLoop oracle state profileId stagingPath modPaths
            fileActions rest (updateAssoc m k newDep)).2.2.2 = .ok () := by
          rw [show (dealLoop oracle state profileId stagingPath modPaths fileActions
              (k :: rest) m).2.2.2 =
            (dealLoop oracle state profileId stagingPath modPaths fileActions
              rest (updateAssoc m k newDep)).2.2.2 by simp only [dealLoop, hout]] at hres
          exact hres
        obtain ⟨m', hm1, hm2⟩ := ih hrestnodup (updateAssoc m k newDep) typeId
          entries hmemrest hlook2 hres2
        refine ⟨m', hm1, ?_⟩
        simp only [dealLoop, hout]
        exact hm2

/-- A successful association lookup implies membership of the key. -/
lemma lookup_some_mem_fst (m : List (String × List IDeployedFile))
    (k : String) (v : List IDeployedFile) (h : m.lookup k = some v) :
    k ∈ m.map Prod.fst := by
  induction m with
  | nil => cases h
  | cons p rest ih =>
    obtain ⟨a, b⟩ := p
    simp only [List.map_cons, List.mem_cons]
    rw [List.lookup_cons] at h
    cases hab : k == a with
    | true => exact Or.inl (beq_iff_eq.mp hab)
    | false =>
      rw [hab] at h
      exact Or.inr (ih h)

/-- C9: dealWithExternalChanges updates the caller supplied
lastDeployment map in place; whenever the pass succeeds, the entry of
every mod type of the map afterwards holds the manifest produced by
applyFileActions for that type, run on the original entry list and on
the decisions filtered to that mod type, not the original entry list
the caller passed in. -/
theorem dealWith_updates_map_in_place (oracle : FileOp → FsOutcome)
    (activator : ActivatorQuery → List IFileChange)
    (dialog : List (String × List IFileChange) → List IFileEntry)
    (state : AppState) (profileId : Option String) (stagingPath : String)
    (modPaths : List (String × String))
    (lastDeployment : List (String × List IDeployedFile))
    (changes : List (String × List IFileChange))
    (typeId : String) (entries : List IDeployedFile)
    (hnodup : (lastDeployment.map Prod.fst).Nodup)
    (hcheck : (checkForExternalChanges activator state profileId stagingPath
        modPaths lastDeployment).result = .ok changes)
    (hok : (dealWithExternalChanges oracle activator dialog state profileId
        stagingPath modPaths lastDeployment).result = .ok ())
    (hlook : lastDeployment.lookup typeId = some entries) :
    ∃ m', (applyFileActions oracle state profileId stagingPath
        ((modPaths.lookup typeId).getD "undefined") entries
        (some ((dialogActions dialog changes).filter
          (fun action => action.modTypeId = typeId)))).result = .ok m' ∧
      ((dealWithExternalChanges oracle activator dialog state profileId
          stagingPath modPaths lastDeployment).final).lookup typeId = some m' := by
  have hmem : typeId ∈ lastDeployment.map Prod.fst :=
    lookup_some_mem_fst lastDeployment typeId entries hlook
  simp only [dealWithExternalChanges, hcheck] at hok ⊢
  exact dealLoop_updates oracle state profileId stagingPath modPaths
    (dialogActions dialog changes) (lastDeployment.map (fun p => p.1))
    (by simpa using hnodup) lastDeployment typeId entries (by simpa using hmem)
    hlook hok

/-- Witness for C9 at a concrete one type map with no discrepancies:
the pass succeeds and the entry of the mod type holds the manifest
applyFileActions returned. -/
theorem dealWith_updates_map_in_place_witness :
    ∃ m', (applyFileActions (fun _ => FsOutcome.ok)
        { profiles := [("p1", { id := "p1", gameId := "g1" })],
          activeProfileId := some "p1" }
        (some "p1") "staging"
        (([("", "output")] : List (String × String)).lookup "" |>.getD "undefined")
        [{ relPath := "a.txt", source := "modA", sourcePath := "a.txt", time := 1 }]
        (some ((dialogActions (fun _ => []) []).filter
          (fun action => action.modTypeId = "")))).result = .ok m' ∧
      ((dealWithExternalChanges (fun _ => FsOutcome.ok) (fun _ => [])
          (fun _ => [])
          { profiles := [("p1", { id := "p1", gameId := "g1" })],
            activeProfileId := some "p1" }
          (some "p1") "staging" [("", "output")]
          [("", [{ relPath := "a.txt", source := "modA", sourcePath := "a.txt", time := 1 }])]).final).lookup "" =
        some m' :=
  dealWith_updates_map_in_place (fun _ => FsOutcome.ok) (fun _ => [])
    (fun _ => [])
    { profiles := [("p1", { id := "p1", gameId := "g1" })],
      activeProfileId := some "p1" }
    (some "p1") "staging" [("", "output")]
    [("", [{ relPath := "a.txt", source := "modA", sourcePath := "a.txt", time := 1 }])]
    [] "" [{ relPath := "a.txt", source := "modA", sourcePath := "a.txt", time := 1 }]
    (by decide) rfl rfl rfl

end Vortex
